import Mathlib

/-!
Shallow embedding of the live Oromo/Amharic translation session pipeline
(`src/App.tsx` and `src/unnamed/part_000`): the playback scheduler cursor
arithmetic, the transcript assembler with its turn finalization, the bounded
history store, the connection state machine with its teardown paths, and the
script-based language classifier. Clock times and audio durations are modelled
as rationals; the decode step is modelled as already completed, so a scheduled
chunk is represented by the duration of its decoded buffer.
-/

namespace LiveTranslation

/-- The two language labels of `types.ts` (`type Language`). -/
inductive Language where
  | AfaanOromoo
  | Amharic
deriving DecidableEq, Repr

/-- The sender tag of a `TranscriptionEntry` (`'user' | 'model'`). -/
inductive Sender where
  | user
  | model
deriving DecidableEq, Repr

/-- Connection lifecycle states (`enum ConnectionStatus` in `types.ts`). -/
inductive ConnectionStatus where
  | DISCONNECTED
  | CONNECTING
  | CONNECTED
  | ERROR
deriving DecidableEq, Repr

/-- A finalized transcript entry (`interface TranscriptionEntry` in `types.ts`);
the string id produced by `Date.now`/`Math.random` is modelled by a counter and
the `Date` timestamp by a rational clock value. -/
structure TranscriptionEntry where
  id : Nat
  sender : Sender
  text : String
  language : Language
  timestamp : ℚ
deriving DecidableEq, Repr

/-- A character of the Ethiopic Unicode block, the class matched by the
regex `[ሀ-፿]` in `detectLanguage`. -/
def isEthiopic (c : Char) : Bool :=
  decide (0x1200 ≤ c.toNat) && decide (c.toNat ≤ 0x137F)

/-- A Latin letter, the class matched by the regex `[a-zA-Z]`. -/
def isLatinLetter (c : Char) : Bool :=
  (decide ('a' ≤ c) && decide (c ≤ 'z')) || (decide ('A' ≤ c) && decide (c ≤ 'Z'))

/-- Number of Ethiopic-block characters of `text`
(`(text.match(/[ሀ-፿]/g) || []).length`). -/
def ethioMatches (text : String) : Nat :=
  (text.toList.filter isEthiopic).length

/-- Number of Latin letters of `text` (`(text.match(/[a-zA-Z]/g) || []).length`). -/
def latinMatches (text : String) : Nat :=
  (text.toList.filter isLatinLetter).length

/-- The language classifier of `src/App.tsx` lines 11-15 and
`src/unnamed/part_000` lines 11-17:
`ethioMatches > latinMatches ? 'Amharic' : 'Afaan Oromoo'`. -/
def detectLanguage (text : String) : Language :=
  if latinMatches text < ethioMatches text then .Amharic else .AfaanOromoo

/-- Claim C5: `detectLanguage` returns one of exactly two labels, returns the
Amharic label if and only if the count of Ethiopic-block characters strictly
exceeds the count of Latin letters, and returns the Afaan Oromoo label on equal
counts (including both zero). -/
theorem detectLanguage_counts (text : String) :
    (detectLanguage text = .Amharic ↔ latinMatches text < ethioMatches text) ∧
    (detectLanguage text = .Amharic ∨ detectLanguage text = .AfaanOromoo) ∧
    (ethioMatches text = latinMatches text → detectLanguage text = .AfaanOromoo) := by
  refine ⟨?_, ?_, ?_⟩
  · unfold detectLanguage
    split <;> simp_all
  · unfold detectLanguage
    split <;> simp
  · intro h
    unfold detectLanguage
    rw [h]
    simp

/-- Witness for C5: on the string "ሀa" the two counts are equal (one Ethiopic
character, one Latin letter) and the classifier picks the Afaan Oromoo label. -/
theorem detectLanguage_counts_witness :
    ethioMatches "ሀa" = latinMatches "ሀa" ∧ detectLanguage "ሀa" = .AfaanOromoo :=
  ⟨by decide, (detectLanguage_counts "ሀa").2.2 (by decide)⟩

/-- JavaScript `list.slice(-n)`: the last `n` elements of the list (the whole
list when it is shorter than `n`). -/
def sliceLast (n : Nat) (l : List α) : List α :=
  l.drop (l.length - n)

/-- One append to the History Store as performed by the reference variants
(`src/App.tsx` line 118, `src/unnamed/part_000` lines 141 and 151):
`setTranscriptions(p => [...p.slice(-49), entry])`. -/
def appendEntry (p : List TranscriptionEntry) (e : TranscriptionEntry) :
    List TranscriptionEntry :=
  sliceLast 49 p ++ [e]

/-- The mutable state of one `App` session: React state (`status`,
`transcriptions`, `isMuted`, `errorMsg`) and the refs (`nextStartTimeRef`,
`sourcesRef`, `sessionRef`, `micStreamRef`, `currentInputTransRef`,
`currentOutputTransRef`). `sources` holds the ids of the in-flight
`AudioBufferSourceNode`s; `handles` is the audio device's view of every node
ever created, mapping a node id to whether it is still playing; `nextId` draws
fresh ids for nodes and entries. -/
structure AppState where
  status : ConnectionStatus
  transcriptions : List TranscriptionEntry
  isMuted : Bool
  errorMsg : Option String
  nextStartTime : ℚ
  sources : List Nat
  handles : List (Nat × Bool)
  sessionOpen : Bool
  micOpen : Bool
  currentInputTrans : String
  currentOutputTrans : String
  nextId : Nat
deriving DecidableEq, Repr

/-- Effect of `source.stop()` on the audio device view: the node with the
given id stops playing (stopping an already-stopped node is a no-op, matching
the `try { source.stop(); } catch (e) {}` best-effort semantics). -/
def stopNode (handles : List (Nat × Bool)) (id : Nat) : List (Nat × Bool) :=
  handles.map fun p => if p.1 = id then (p.1, false) else p

/-- The playback flush `stopAllAudio` (`src/App.tsx` lines 33-39,
`src/unnamed/part_000` lines 37-43): stop every source in `sourcesRef`, clear
the set, reset `nextStartTimeRef` to 0. -/
def stopAllAudio (s : AppState) : AppState :=
  { s with handles := s.sources.foldl stopNode s.handles
           sources := []
           nextStartTime := 0 }

/-- The teardown `disconnect` (`src/App.tsx` lines 41-52, `src/unnamed/part_000`
lines 45-56): close and null the session if present, stop and null the mic
stream if present, `stopAllAudio()`, set status to `DISCONNECTED`. -/
def disconnect (s : AppState) : AppState :=
  let s1 := if s.sessionOpen then { s with sessionOpen := false } else s
  let s2 := if s1.micOpen then { s1 with micOpen := false } else s1
  let s3 := stopAllAudio s2
  { s3 with status := .DISCONNECTED }

/-- Characters stripped from both ends by JavaScript `String.prototype.trim`:
drop leading whitespace, then drop trailing whitespace. -/
def trimChars (l : List Char) : List Char :=
  ((l.dropWhile Char.isWhitespace).reverse.dropWhile Char.isWhitespace).reverse

/-- JavaScript `text.trim()`. -/
def jsTrim (s : String) : String :=
  ⟨trimChars s.data⟩

/-- The `turnComplete` block of the `onmessage` handler (`src/App.tsx`
lines 113-125, `src/unnamed/part_000` lines 136-160): trim each direction's
buffer; when the trimmed text is nonempty (JavaScript truthiness of the
trimmed string), append a finalized entry to the History Store and clear that
direction's buffer. -/
def finalizeTurn (now : ℚ) (s : AppState) : AppState :=
  let input := jsTrim s.currentInputTrans
  let output := jsTrim s.currentOutputTrans
  let s1 :=
    if input ≠ "" then
      { s with transcriptions :=
                 appendEntry s.transcriptions
                   ⟨s.nextId, .user, input, detectLanguage input, now⟩
               currentInputTrans := ""
               nextId := s.nextId + 1 }
    else s
  let s2 :=
    if output ≠ "" then
      { s1 with transcriptions :=
                  appendEntry s1.transcriptions
                    ⟨s1.nextId, .model, output, detectLanguage output, now⟩
                currentOutputTrans := ""
                nextId := s1.nextId + 1 }
    else s1
  s2

/-- The audio-chunk branch of the `onmessage` handler (`src/App.tsx`
lines 127-139, `src/unnamed/part_000` lines 163-175):
`nextStartTime = max(nextStartTime, ctx.currentTime)`, decode the chunk (here
modelled by its decoded duration `dur`), start a new source at `nextStartTime`,
advance `nextStartTime += buffer.duration`, add the source to the active set. -/
def scheduleChunk (now dur : ℚ) (s : AppState) : AppState :=
  let start := max s.nextStartTime now
  { s with nextStartTime := start + dur
           sources := s.sources ++ [s.nextId]
           handles := s.handles ++ [(s.nextId, true)]
           nextId := s.nextId + 1 }

/-- One inbound message of the duplex stream (`LiveServerMessage` as consumed
by `onmessage`): optional transcription deltas for each direction, the
turn-complete flag, an optional audio chunk (modelled by its decoded
duration), and the interruption flag. -/
structure ServerMessage where
  inputTranscription : Option String
  outputTranscription : Option String
  turnComplete : Bool
  audioData : Option ℚ
  interrupted : Bool
deriving DecidableEq, Repr

/-- The `onmessage` handler (`src/App.tsx` lines 105-142, `src/unnamed/part_000`
lines 126-181), applying its five independent effects in source order: append
the incoming delta, append the outgoing delta, finalize the turn on
`turnComplete`, schedule an inbound audio chunk, and flush playback on
`interrupted`. -/
def handleMessage (now : ℚ) (m : ServerMessage) (s : AppState) : AppState :=
  let sa :=
    match m.inputTranscription with
    | some t => { s with currentInputTrans := s.currentInputTrans ++ t }
    | none => s
  let sb :=
    match m.outputTranscription with
    | some t => { sa with currentOutputTrans := sa.currentOutputTrans ++ t }
    | none => sa
  let sc := if m.turnComplete then finalizeTurn now sb else sb
  let sd :=
    match m.audioData with
    | some dur => scheduleChunk now dur sc
    | none => sc
  if m.interrupted then stopAllAudio sd else sd

/-- The `onerror` callback of the retry variant (`src/unnamed/part_000`
lines 182-190): set status to `ERROR`, record the message, and schedule a
reconnect timer — the returned flag records that a `setTimeout(..., 3000)`
reconnect is now pending. The scheduling is unconditional: no retry counter is
consulted. -/
def onerror (s : AppState) : AppState × Bool :=
  ({ s with status := .ERROR
            errorMsg := some "Connection error. Trying to resume..." }, true)

/-- The delay passed to `setTimeout` by the `onerror` retry
(`src/unnamed/part_000` line 189). -/
def retryDelayMs : Nat := 3000

/-- Entry into `connect()` (`src/unnamed/part_000` lines 58-61): set status to
`CONNECTING` and clear the error message. -/
def connectStart (s : AppState) : AppState :=
  { s with status := .CONNECTING
           errorMsg := none }

/-- The body of the reconnect timer (`src/unnamed/part_000` lines 187-189):
`if (status !== ConnectionStatus.CONNECTED) connect();`. -/
def retryFire (s : AppState) : AppState :=
  if s.status ≠ .CONNECTED then connectStart s else s

/-- One error/retry cycle under a transport that fails every attempt: the
remote signals `error`, then the pending reconnect timer fires. -/
def errorCycle (s : AppState) : AppState :=
  retryFire (onerror s).1

/-- A freshly connected session with no scheduled audio, no history and empty
transcript buffers, used to instantiate the universally quantified theorems. -/
def state0 : AppState :=
  { status := .CONNECTED
    transcriptions := []
    isMuted := false
    errorMsg := none
    nextStartTime := 0
    sources := []
    handles := []
    sessionOpen := true
    micOpen := true
    currentInputTrans := ""
    currentOutputTrans := ""
    nextId := 0 }

/-- Claim C2: after any single call to the flush `stopAllAudio`, the
active-handle set is empty and the cursor `nextStartTime` equals 0, regardless
of how many handles were active before the call and of whether individual
handles had already finished playing. -/
theorem stopAllAudio_clears (s : AppState) :
    (stopAllAudio s).sources = [] ∧ (stopAllAudio s).nextStartTime = 0 := by
  simp [stopAllAudio]

/-- Claim C8: `disconnect` is legal from every session state and idempotent: a
single call releases the stream handle, stops the microphone, flushes playback
and sets the state to `DISCONNECTED`, and a second immediate call leaves the
entire state unchanged. -/
theorem disconnect_always_legal (s : AppState) :
    (disconnect s).status = .DISCONNECTED ∧
    (disconnect s).sessionOpen = false ∧
    (disconnect s).micOpen = false ∧
    (disconnect s).sources = [] ∧
    (disconnect s).nextStartTime = 0 ∧
    disconnect (disconnect s) = disconnect s := by
  unfold disconnect stopAllAudio
  by_cases h1 : s.sessionOpen <;> by_cases h2 : s.micOpen <;> simp [h1, h2]

/-- Claim C10: `disconnect`, from any state, leaves the History Store contents
and both accumulated transcript delta buffers unchanged. -/
theorem disconnect_preserves_transcripts (s : AppState) :
    (disconnect s).transcriptions = s.transcriptions ∧
    (disconnect s).currentInputTrans = s.currentInputTrans ∧
    (disconnect s).currentOutputTrans = s.currentOutputTrans := by
  unfold disconnect stopAllAudio
  by_cases h1 : s.sessionOpen <;> by_cases h2 : s.micOpen <;> simp [h1, h2]

/-- Counterexample to claim C3: a turn-complete on a buffer holding only
whitespace does not clear that buffer — the clearing assignment sits inside
`if (input)`, which is skipped when the trimmed text is empty. Starting from a
state whose incoming buffer holds a single space, the buffer still holds that
space after `finalizeTurn`. -/
theorem finalizeTurn_whitespace_counterexample :
    ¬ ((finalizeTurn 0 { state0 with currentInputTrans := " " }).currentInputTrans = "" ∧
       (finalizeTurn 0 { state0 with currentInputTrans := " " }).currentOutputTrans = "") := by
  decide

/-- Claim C3 as amended: on every turn-complete, `finalizeTurn` clears each
direction's buffer exactly when its content trims to a nonempty string (that
is, exactly when an entry is emitted for that direction); a buffer whose
content trims to empty — in particular a whitespace-only buffer — is left
unchanged. Each direction is handled independently, so this holds even when
only one direction had content. -/
theorem finalizeTurn_clears_iff_emitted (now : ℚ) (s : AppState) :
    (finalizeTurn now s).currentInputTrans =
      (if jsTrim s.currentInputTrans = "" then s.currentInputTrans else "") ∧
    (finalizeTurn now s).currentOutputTrans =
      (if jsTrim s.currentOutputTrans = "" then s.currentOutputTrans else "") := by
  unfold finalizeTurn
  by_cases h1 : jsTrim s.currentInputTrans = "" <;>
    by_cases h2 : jsTrim s.currentOutputTrans = "" <;> simp [h1, h2]

/-- Every member of an appended History Store is an old member or the new
entry (the eviction `slice(-49)` only drops elements). -/
theorem mem_appendEntry {e f : TranscriptionEntry} {l : List TranscriptionEntry}
    (h : e ∈ appendEntry l f) : e ∈ l ∨ e = f := by
  rcases List.mem_append.1 h with h1 | h1
  · exact Or.inl (List.mem_of_mem_drop h1)
  · simp at h1
    exact Or.inr h1

/-- Claim C9: a transcript buffer whose accumulated text trims to the empty
string contributes no `TranscriptionEntry` on turn-complete — every entry of
that direction present after `finalizeTurn` was already in the History Store
before. -/
theorem finalizeTurn_empty_no_entry (now : ℚ) (s : AppState) :
    (jsTrim s.currentInputTrans = "" →
      ∀ e ∈ (finalizeTurn now s).transcriptions, e.sender = .user →
        e ∈ s.transcriptions) ∧
    (jsTrim s.currentOutputTrans = "" →
      ∀ e ∈ (finalizeTurn now s).transcriptions, e.sender = .model →
        e ∈ s.transcriptions) := by
  constructor
  · intro h1 e he hs
    by_cases h2 : jsTrim s.currentOutputTrans = ""
    · simp [finalizeTurn, h1, h2] at he
      exact he
    · simp [finalizeTurn, h1, h2] at he
      rcases mem_appendEntry he with h | h
      · exact h
      · rw [h] at hs
        simp at hs
  · intro h2 e he hs
    by_cases h1 : jsTrim s.currentInputTrans = ""
    · simp [finalizeTurn, h1, h2] at he
      exact he
    · simp [finalizeTurn, h1, h2] at he
      rcases mem_appendEntry he with h | h
      · exact h
      · rw [h] at hs
        simp at hs

/-- A pre-existing user entry used by the C9 witness. -/
def entryU : TranscriptionEntry :=
  ⟨0, .user, "hi", .AfaanOromoo, 0⟩

/-- State for the C9 witness: one finalized user entry in the history, a
whitespace-only incoming buffer and a nonempty outgoing buffer. -/
def state9 : AppState :=
  { state0 with transcriptions := [entryU]
                currentInputTrans := "  "
                currentOutputTrans := "ok" }

/-- Witness for C9: on `state9` the incoming buffer trims to empty, and the
user entry found in the history after the turn-complete is the pre-existing
one — no incoming-direction entry was created. -/
theorem finalizeTurn_empty_no_entry_witness : entryU ∈ state9.transcriptions :=
  (finalizeTurn_empty_no_entry 0 state9).1 (by decide) entryU (by decide) (by decide)

/-- Claim C6 evidence: under a transport that signals `error` after every
connect attempt, the retry variant loops forever: after any number of
error/retry cycles the status is `CONNECTING` again — never `DISCONNECTED` —
and every error schedules yet another 3-second reconnect timer, with no retry
counter ever consulted. -/
theorem onerror_retry_never_disconnects (s : AppState) (n : Nat) :
    (errorCycle^[n] (connectStart s)).status = .CONNECTING ∧
    (errorCycle^[n] (connectStart s)).status ≠ .DISCONNECTED ∧
    (onerror (errorCycle^[n] (connectStart s))).2 = true ∧
    (onerror (errorCycle^[n] (connectStart s))).1.status = .ERROR := by
  induction n with
  | zero => simp [connectStart, onerror]
  | succ k ih =>
    rw [Function.iterate_succ_apply']
    obtain ⟨h1, -, -⟩ := ih
    refine ⟨?_, ?_, rfl, rfl⟩ <;> simp [errorCycle, onerror, retryFire, connectStart]

/-- A message carrying only the interruption signal (`{interrupted: true}`). -/
def interruptedMsg : ServerMessage :=
  ⟨none, none, false, none, true⟩

/-- Stopping node `j` makes every device entry for `j` non-playing. -/
theorem stopNode_stops {handles : List (Nat × Bool)} {j : Nat} :
    ∀ p ∈ stopNode handles j, p.1 = j → p.2 = false := by
  intro p hp hpj
  simp only [stopNode, List.mem_map] at hp
  obtain ⟨q, hq, hpq⟩ := hp
  by_cases hqj : q.1 = j
  · rw [if_pos hqj] at hpq
    subst hpq
    rfl
  · rw [if_neg hqj] at hpq
    subst hpq
    exact absurd hpj hqj

/-- Stopping some node preserves the fact that every device entry for node `i`
is already non-playing. -/
theorem stopNode_pres {handles : List (Nat × Bool)} {i j : Nat}
    (h : ∀ p ∈ handles, p.1 = i → p.2 = false) :
    ∀ p ∈ stopNode handles j, p.1 = i → p.2 = false := by
  intro p hp hpi
  simp only [stopNode, List.mem_map] at hp
  obtain ⟨q, hq, hpq⟩ := hp
  by_cases hqj : q.1 = j
  · rw [if_pos hqj] at hpq
    subst hpq
    rfl
  · rw [if_neg hqj] at hpq
    subst hpq
    exact h q hq hpi

/-- A whole stop pass preserves the fact that every device entry for node `i`
is already non-playing. -/
theorem stopNode_foldl_pres {i : Nat} :
    ∀ (ids : List Nat) (handles : List (Nat × Bool)),
      (∀ p ∈ handles, p.1 = i → p.2 = false) →
      ∀ p ∈ ids.foldl stopNode handles, p.1 = i → p.2 = false := by
  intro ids
  induction ids with
  | nil =>
    intro handles h
    simpa using h
  | cons j ids ih =>
    intro handles h
    simp only [List.foldl_cons]
    exact ih (stopNode handles j) (stopNode_pres h)

/-- After stopping every node of `ids`, every device entry whose id lies in
`ids` is non-playing. -/
theorem foldl_stopNode_stops :
    ∀ (ids : List Nat) (handles : List (Nat × Bool)),
      ∀ p ∈ ids.foldl stopNode handles, p.1 ∈ ids → p.2 = false := by
  intro ids
  induction ids with
  | nil =>
    intro handles p hp hmem
    simp at hmem
  | cons j ids ih =>
    intro handles p hp hmem
    simp only [List.foldl_cons] at hp
    rcases List.mem_cons.1 hmem with hj | hmem2
    · exact stopNode_foldl_pres ids (stopNode handles j) stopNode_stops p hp hj
    · exact ih (stopNode handles j) p hp hmem2

/-- Claim C7: receiving `{interrupted: true}` while `CONNECTED` flushes the
playback scheduler and nothing else — the status stays `CONNECTED`, the stream
and microphone handles are untouched, both transcript buffers and the History
Store are unchanged, every previously scheduled playback node is stopped, the
active set is emptied and the cursor resets to 0. -/
theorem interrupted_flush_only (now : ℚ) (s : AppState)
    (h : s.status = .CONNECTED) :
    (handleMessage now interruptedMsg s).status = .CONNECTED ∧
    (handleMessage now interruptedMsg s).sessionOpen = s.sessionOpen ∧
    (handleMessage now interruptedMsg s).micOpen = s.micOpen ∧
    (handleMessage now interruptedMsg s).currentInputTrans = s.currentInputTrans ∧
    (handleMessage now interruptedMsg s).currentOutputTrans = s.currentOutputTrans ∧
    (handleMessage now interruptedMsg s).transcriptions = s.transcriptions ∧
    (handleMessage now interruptedMsg s).sources = [] ∧
    (handleMessage now interruptedMsg s).nextStartTime = 0 ∧
    (∀ p ∈ (handleMessage now interruptedMsg s).handles,
        p.1 ∈ s.sources → p.2 = false) := by
  have hdl : handleMessage now interruptedMsg s = stopAllAudio s := by
    simp [handleMessage, interruptedMsg]
  rw [hdl]
  exact ⟨h, rfl, rfl, rfl, rfl, rfl, rfl, rfl,
    foldl_stopNode_stops s.sources s.handles⟩

/-- State for the C7 witness: a connected session with two scheduled chunks
and a nonzero cursor (the barge-in scenario of the spec). -/
def state7 : AppState :=
  { state0 with sources := [0, 1]
                handles := [(0, true), (1, true)]
                nextStartTime := 5
                nextId := 2 }

/-- Witness for C7: interrupting `state7` (two chunks in flight) empties the
active set, resets the cursor and keeps the session `CONNECTED`. -/
theorem interrupted_flush_only_witness :
    (handleMessage 3 interruptedMsg state7).sources = [] ∧
    (handleMessage 3 interruptedMsg state7).nextStartTime = 0 ∧
    (handleMessage 3 interruptedMsg state7).status = .CONNECTED :=
  ⟨(interrupted_flush_only 3 state7 (by decide)).2.2.2.2.2.2.1,
   (interrupted_flush_only 3 state7 (by decide)).2.2.2.2.2.2.2.1,
   (interrupted_flush_only 3 state7 (by decide)).1⟩

/-- The cursor advance performed by one scheduled chunk:
`start = max(cursor, currentTime)`, then `cursor = start + duration`. -/
theorem scheduleChunk_cursor (now dur : ℚ) (s : AppState) :
    (scheduleChunk now dur s).nextStartTime = max s.nextStartTime now + dur := rfl

/-- Start times assigned to a sequence of `schedule()` calls, each call given
as a pair (clock time at arrival, decoded buffer duration): call after call,
the start time is `max(cursor, currentTime)` and the cursor advances by the
duration, exactly as in the audio-chunk branch of `onmessage`. -/
def scheduleStartsApp (s : AppState) : List (ℚ × ℚ) → List ℚ
  | [] => []
  | c :: rest =>
      max s.nextStartTime c.1 :: scheduleStartsApp (scheduleChunk c.1 c.2 s) rest

/-- Cursor value observed at the entry of each `schedule()` call of the
sequence. -/
def cursorsBeforeApp (s : AppState) : List (ℚ × ℚ) → List ℚ
  | [] => []
  | c :: rest => s.nextStartTime :: cursorsBeforeApp (scheduleChunk c.1 c.2 s) rest

/-- Claim C1: for every sequence of `schedule()` calls with positive durations,
arriving at arbitrary clock times, the start time of call `i+1` is at least the
end time (start plus duration) of call `i` — scheduled chunks never overlap —
and whenever the cursor never falls behind the clock (each call's clock time is
at most the cursor it observes) the gap is exactly zero. Only the cursor
arithmetic is involved: the bound holds for every clock-time sequence, hence
for chunks arriving in any order. -/
theorem schedule_no_overlap (s : AppState) (calls : List (ℚ × ℚ)) (i : Nat)
    (hi : i + 1 < calls.length)
    (hdur : ∀ j, j < calls.length → 0 < (calls.getD j (0, 0)).2) :
    (scheduleStartsApp s calls).getD i 0 + (calls.getD i (0, 0)).2 ≤
      (scheduleStartsApp s calls).getD (i + 1) 0 ∧
    ((∀ j, j < calls.length →
        (calls.getD j (0, 0)).1 ≤ (cursorsBeforeApp s calls).getD j 0) →
      (scheduleStartsApp s calls).getD (i + 1) 0 =
        (scheduleStartsApp s calls).getD i 0 + (calls.getD i (0, 0)).2) := by
  induction calls generalizing s i with
  | nil => simp at hi
  | cons c rest ih =>
    cases i with
    | zero =>
      cases rest with
      | nil => simp at hi
      | cons c2 rest2 =>
        constructor
        · simp only [scheduleStartsApp, List.getD_cons_succ, List.getD_cons_zero]
          exact le_max_left _ _
        · intro hclk
          have h2 := hclk 1 (by simp)
          simp only [cursorsBeforeApp, List.getD_cons_succ, List.getD_cons_zero] at h2
          simp only [scheduleStartsApp, List.getD_cons_succ, List.getD_cons_zero]
          rw [scheduleChunk_cursor] at h2 ⊢
          exact max_eq_left h2
    | succ k =>
      have hi2 : k + 1 < rest.length := by
        simpa using hi
      have hdur2 : ∀ j, j < rest.length → 0 < (rest.getD j (0, 0)).2 := by
        intro j hj
        have hx := hdur (j + 1) (by simpa using Nat.succ_lt_succ hj)
        simpa using hx
      have hrec := ih (scheduleChunk c.1 c.2 s) k hi2 hdur2
      constructor
      · simpa only [scheduleStartsApp, List.getD_cons_succ] using hrec.1
      · intro hclk
        have hclk2 : ∀ j, j < rest.length →
            (rest.getD j (0, 0)).1 ≤
              (cursorsBeforeApp (scheduleChunk c.1 c.2 s) rest).getD j 0 := by
          intro j hj
          have hx := hclk (j + 1) (by simpa using Nat.succ_lt_succ hj)
          simpa only [cursorsBeforeApp, List.getD_cons_succ] using hx
        simpa only [scheduleStartsApp, List.getD_cons_succ] using hrec.2 hclk2

/-- Schedule-call sequence for the C1 witness: two chunks, both arriving at
clock time 0, with durations 1 and 2. -/
def calls1 : List (ℚ × ℚ) :=
  [(0, 1), (0, 2)]

/-- Witness for C1: on `state0` and `calls1` the second chunk starts exactly
at the end time of the first (start 0 plus duration 1). -/
theorem schedule_no_overlap_witness :
    (scheduleStartsApp state0 calls1).getD 1 0 =
      (scheduleStartsApp state0 calls1).getD 0 0 + (calls1.getD 0 (0, 0)).2 :=
  (schedule_no_overlap state0 calls1 0 (by decide) (by decide)).2
    (by simp [calls1, cursorsBeforeApp, scheduleChunk, state0, Nat.forall_lt_succ])

/-- The last `n` elements are at most `n` elements. -/
theorem sliceLast_length_le (n : Nat) (l : List α) : (sliceLast n l).length ≤ n := by
  simp only [sliceLast, List.length_drop]
  omega

/-- One History Store append never leaves more than 50 entries. -/
theorem appendEntry_length_le (l : List TranscriptionEntry) (e : TranscriptionEntry) :
    (appendEntry l e).length ≤ 50 := by
  have h49 := sliceLast_length_le 49 l
  simp only [appendEntry, List.length_append, List.length_singleton]
  omega

/-- Pre-truncating the left part of an append does not change a final
truncation, as long as what was kept together with the right part still covers
the final window. -/
theorem sliceLast_append_sliceLast {m n : Nat} (l r : List α)
    (h : n ≤ m + r.length) :
    sliceLast n (sliceLast m l ++ r) = sliceLast n (l ++ r) := by
  by_cases hm : l.length ≤ m
  · rw [show sliceLast m l = l from by simp [sliceLast, Nat.sub_eq_zero_of_le hm]]
  · push_neg at hm
    simp only [sliceLast, List.length_append, List.length_drop]
    rw [List.drop_append_eq_append_drop, List.drop_append_eq_append_drop,
      List.drop_drop]
    congr 1
    · congr 1
      omega
    · congr 1
      simp only [List.length_drop]
      omega

/-- Folding History Store appends over any starting log of at most 50 entries
keeps exactly the 50 most recent entries. -/
theorem foldl_appendEntry_eq (es : List TranscriptionEntry) :
    ∀ l : List TranscriptionEntry, l.length ≤ 50 →
      es.foldl appendEntry l = sliceLast 50 (l ++ es) := by
  induction es with
  | nil =>
    intro l hl
    simp [sliceLast, Nat.sub_eq_zero_of_le hl]
  | cons e es ih =>
    intro l hl
    rw [List.foldl_cons, ih (appendEntry l e) (appendEntry_length_le l e)]
    show sliceLast 50 ((sliceLast 49 l ++ [e]) ++ es) = sliceLast 50 (l ++ e :: es)
    rw [List.append_assoc, sliceLast_append_sliceLast l ([e] ++ es) (by simp; omega)]
    rfl

/-- Claim C4: for every sequence of appends starting from the empty History
Store, the store never exceeds 50 entries, and after 51 appends the oldest
entry has been evicted while the remaining 50 keep their relative order (the
result is exactly the input sequence minus its first element). -/
theorem historyStore_bounded (es : List TranscriptionEntry) :
    (es.foldl appendEntry []).length ≤ 50 ∧
    (es.length = 51 → es.foldl appendEntry [] = es.drop 1) := by
  have hfold : es.foldl appendEntry [] = sliceLast 50 es := by
    simpa using foldl_appendEntry_eq es [] (by simp)
  constructor
  · rw [hfold]
    exact sliceLast_length_le 50 es
  · intro h51
    rw [hfold]
    simp [sliceLast, h51]

/-- Fifty-one distinct entries for the C4 witness. -/
def es51 : List TranscriptionEntry :=
  (List.range 51).map fun i => ⟨i, .user, "x", .AfaanOromoo, 0⟩

/-- Witness for C4: appending the 51 entries of `es51` to the empty store
yields exactly `es51` minus its first (oldest) entry. -/
theorem historyStore_bounded_witness :
    es51.foldl appendEntry [] = es51.drop 1 :=
  (historyStore_bounded es51).2 (by simp [es51])

end LiveTranslation
